import Mathlib

/-!
Shallow embedding of the mc-discord-auth core: the `account_links` table
(src/db/tables/links.ts), the `pending_authorisations` table
(src/db/tables/auth.ts), and the `/isValidPlayer` HTTP pipeline
(src/webserver/WebServer.ts), together with theorems checking the
claims of the specification against these definitions.

Tables are modelled as lists of rows in insertion order; a prepared
`SELECT ... WHERE p` followed by `.get(...)` is `List.find?`, an `INSERT`
appends a row.  JavaScript string truthiness (`if (s)`) is `s ≠ ""`.
-/

namespace McDiscordAuth

/-- JavaScript truthiness of a string: truthy iff nonempty. -/
def truthy (s : String) : Bool := !(s == "")

/-! ## account_links table (src/db/tables/links.ts) -/

/-- A row of `account_links`; both columns are NOT NULL text
(`minecraft text UNIQUE NOT NULL, discord text PRIMARY KEY NOT NULL`). -/
structure LinkRow where
  minecraft : String
  discord : String
deriving Repr, DecidableEq

/-- The `account_links` table, rows in insertion (rowid) order. -/
abbrev LinksDB := List LinkRow

namespace LinksTable

/-- Models `getDiscordID(uuid)`: `SELECT discord FROM account_links WHERE minecraft=?`;
returns the discord column when truthy, else `null` (source returns `null`
both when the row is absent and when the stored string is empty, because it
tests `if (discordID)`). -/
def getDiscordID (db : LinksDB) (uuid : String) : Option String :=
  match db.find? (fun r => r.minecraft == uuid) with
  | some row => if truthy row.discord then some row.discord else none
  | none => none

/-- Errors thrown by the db layer (src/db/errors.ts as used by links.ts). -/
inductive DbError where
  | NoMcAccError
  | NoDiscordAccError
deriving Repr, DecidableEq

/-- Models `getMcID(discordID)`: `SELECT minecraft FROM account_links WHERE discord=?`;
throws `NoMcAccError` when the row is absent or the stored string is falsy
(source tests `if (uuid)`). -/
def getMcID (db : LinksDB) (discordID : String) : Except DbError String :=
  match db.find? (fun r => r.discord == discordID) with
  | some row => if truthy row.minecraft then .ok row.minecraft else .error .NoMcAccError
  | none => .error .NoMcAccError

/-- Result of `link`: `thrown` holds the side of a thrown
`AlreadyLinkedError`, `db` is the table after the call. -/
structure LinkOutcome where
  thrown : Option String
  db : LinksDB
deriving Repr, DecidableEq

/-- Models `link(discordID, mcID)`: first `SELECT * WHERE discord=? OR minecraft=?`;
if a row is found the source classifies the side by TRUTHINESS of the
columns of the found row (`alreadyLinked.discord && alreadyLinked.minecraft`
→ "both", `alreadyLinked.discord` → "discord", else "minecraft"), otherwise
`INSERT INTO account_links (discord, minecraft) VALUES (?,?)`. -/
def link (db : LinksDB) (discordID mcID : String) : LinkOutcome :=
  match db.find? (fun r => r.discord == discordID || r.minecraft == mcID) with
  | some row =>
    if truthy row.discord && truthy row.minecraft then ⟨some "both", db⟩
    else if truthy row.discord then ⟨some "discord", db⟩
    else ⟨some "minecraft", db⟩
  | none => ⟨none, db ++ [⟨mcID, discordID⟩]⟩

end LinksTable

end McDiscordAuth

namespace McDiscordAuth

open LinksTable

/-- C1 counterexample computations: a table holding the single row
(minecraft "m1", discord "d1"). -/
def c1db : LinksDB := [⟨"m1", "d1"⟩]

/-- **C1** (code_bug evidence): with row (minecraft "m1", discord "d1") present,
`link("d1","m2")` collides only on the discord column, yet the code throws
`AlreadyLinkedError("both")` — it tests truthiness of the NOT NULL
columns instead of comparing them with the requested identifiers, so the
"discord" and "minecraft" branches are unreachable for rows with nonempty
columns of the found row.  Likewise `link("d2","m1")` (collision only on minecraft) throws
"both". -/
theorem link_side_always_both :
    (link c1db "d1" "m2").thrown = some "both" ∧
    (link c1db "d2" "m1").thrown = some "both" := by
  constructor <;> rfl

/-- C7 counterexample computations: a table holding the single row
(minecraft "mA", discord "dA"). -/
def c7db : LinksDB := [⟨"mA", "dA"⟩]

/-- **C7** (code_bug evidence): with "dA" linked to "mA" and "mB" unlinked,
`link("dA","mB")` does leave the table unchanged (no row inserted), but it
throws side "both" rather than the claimed side "discord". -/
theorem link_discord_taken_reports_both :
    (link c7db "dA" "mB").thrown = some "both" ∧
    (link c7db "dA" "mB").db = c7db := by
  constructor <;> rfl

/-- **C3** counterexample: with an empty table, `link("", "m0")` succeeds
(nothing collides, both columns NOT NULL accept the empty string), but
`getDiscordID("m0")` on the resulting table returns `none`, not
`some ""` — the claimed round-trip `resolveDiscordId(mcId) = discordId`
fails at discordId = "" because the lookup tests truthiness of the stored
string. -/
theorem link_getDiscordID_roundtrip_fails_on_empty :
    (link ([] : LinksDB) "" "m0").thrown = none ∧
    getDiscordID (link ([] : LinksDB) "" "m0").db "m0" = none ∧
    (none : Option String) ≠ some "" := by
  refine ⟨rfl, rfl, ?_⟩
  intro h
  cases h

/-- **C3** (amended): for nonempty identifiers the round-trip holds — if
`link(discordId, mcId)` succeeds then `getDiscordID(mcId)` returns the
discordId and `getMcID(discordId)` returns the mcId on the resulting table. -/
theorem link_roundtrip (db : LinksDB) (d m : String) (hd : d ≠ "") (hm : m ≠ "")
    (hok : (link db d m).thrown = none) :
    getDiscordID (link db d m).db m = some d ∧
    getMcID (link db d m).db d = .ok m := by
  have hfind : db.find? (fun r => r.discord == d || r.minecraft == m) = none := by
    cases hf : db.find? (fun r => r.discord == d || r.minecraft == m) with
    | none => rfl
    | some row =>
      exfalso
      simp only [link, hf] at hok
      split at hok
      · simp at hok
      · split at hok <;> simp at hok
  have hdb : (link db d m).db = db ++ [⟨m, d⟩] := by
    simp [link, hfind]
  have hnone := List.find?_eq_none.mp hfind
  constructor
  · rw [hdb]
    unfold getDiscordID
    rw [List.find?_append]
    have h1 : db.find? (fun r => r.minecraft == m) = none := by
      rw [List.find?_eq_none]
      intro r hr
      have h2 := hnone r hr
      simp only [Bool.or_eq_true, not_or] at h2
      exact h2.2
    rw [h1]
    simp [truthy, hd]
  · rw [hdb]
    unfold getMcID
    rw [List.find?_append]
    have h1 : db.find? (fun r => r.discord == d) = none := by
      rw [List.find?_eq_none]
      intro r hr
      have h2 := hnone r hr
      simp only [Bool.or_eq_true, not_or] at h2
      exact h2.1
    rw [h1]
    simp [truthy, hm]

/-- Witness for `link_roundtrip` at db = [], discordId = "d0", mcId = "m0". -/
theorem link_roundtrip_witness :
    getDiscordID (link ([] : LinksDB) "d0" "m0").db "m0" = some "d0" ∧
    getMcID (link ([] : LinksDB) "d0" "m0").db "d0" = .ok "m0" :=
  link_roundtrip [] "d0" "m0" (by decide) (by decide) rfl

/-! ## pending_authorisations table (src/db/auth.ts, given unnamed) -/

/-- A row of `pending_authorisations`
(`mc_id text UNIQUE NOT NULL, auth_code text UNIQUE NOT NULL`). -/
structure AuthCodeProfile where
  auth_code : String
  mc_id : String
deriving Repr, DecidableEq

/-- The `pending_authorisations` table, rows in insertion order. -/
abbrev AuthDB := List AuthCodeProfile

namespace AuthCodes

/-- States the two UNIQUE constraints of the table: all `mc_id` values pairwise distinct
and all `auth_code` values pairwise distinct. -/
def wf : AuthDB → Bool
  | [] => true
  | r :: rs =>
    rs.all (fun s => !(s.mc_id == r.mc_id) && !(s.auth_code == r.auth_code)) && wf rs

/-- Models `assertAuthCode(mc_id)`: the generated code (`generateAuthCodeString()`,
a random UUID segment, impure) is passed here as the `auth_code` argument.
Models `INSERT INTO pending_authorisations (auth_code, mc_id) VALUES (?, ?)
ON CONFLICT(mc_id) DO UPDATE SET auth_code=? WHERE mc_id=? RETURNING *`:
a conflict on `mc_id` turns the insert into an update of that same row, setting its
`auth_code`; a UNIQUE violation on `auth_code` (some other row already
holds the code) makes the statement throw, modelled as `none`. -/
def assertAuthCode (db : AuthDB) (mc_id auth_code : String) :
    Option (AuthCodeProfile × AuthDB) :=
  match db.find? (fun r => r.mc_id == mc_id) with
  | none =>
    if db.any (fun r => r.auth_code == auth_code) then none
    else some (⟨auth_code, mc_id⟩, db ++ [⟨auth_code, mc_id⟩])
  | some r0 =>
    if db.any (fun r => !(r.mc_id == mc_id) && r.auth_code == auth_code) then none
    else some ({ r0 with auth_code := auth_code },
      db.map (fun r => if r.mc_id == mc_id then { r with auth_code := auth_code } else r))

end AuthCodes

/-- Updating the `auth_code` of the rows keyed by `mc` commutes with
filtering by `mc`, because the update never changes `mc_id`. -/
theorem filter_map_setCode (db : AuthDB) (mc c : String) :
    (db.map (fun r => if r.mc_id == mc then { r with auth_code := c } else r)).filter
        (fun r => r.mc_id == mc)
      = (db.filter (fun r => r.mc_id == mc)).map
          (fun r => if r.mc_id == mc then { r with auth_code := c } else r) := by
  rw [List.filter_map]
  congr 1
  apply List.filter_congr
  intro r _
  rcases eq_or_ne r.mc_id mc with h | h <;> simp [h]

/-- Under the UNIQUE constraint on `mc_id`, a successful `find?` by `mc_id`
pins down the whole filtered sublist. -/
theorem wf_filter_singleton (db : AuthDB) (mc : String) (r0 : AuthCodeProfile)
    (hwf : AuthCodes.wf db = true)
    (hf : db.find? (fun r => r.mc_id == mc) = some r0) :
    db.filter (fun r => r.mc_id == mc) = [r0] := by
  induction db with
  | nil => cases hf
  | cons h t ih =>
    simp only [AuthCodes.wf, Bool.and_eq_true, List.all_eq_true] at hwf
    by_cases hp : (h.mc_id == mc) = true
    · simp only [List.find?_cons, hp, Option.some.injEq] at hf
      subst hf
      simp only [List.filter_cons, hp, if_true]
      have hmc : h.mc_id = mc := by simpa using hp
      have ht : t.filter (fun r => r.mc_id == mc) = [] := by
        rw [List.filter_eq_nil_iff]
        intro s hs
        have hne : s.mc_id ≠ h.mc_id := by simpa using (hwf.1 s hs).1
        rw [hmc] at hne
        simp [hne]
      rw [ht]
    · have hp' : (h.mc_id == mc) = false := by simpa using hp
      simp only [List.find?_cons, hp'] at hf
      simp only [List.filter_cons, hp']
      simpa using ih hwf.2 hf

/-- A successful `assertAuthCode` on a well-formed table leaves exactly the
single row `(auth_code, mc_id)` among the rows keyed by `mc_id`. -/
theorem assertAuthCode_filter (db : AuthDB) (mc c : String) (p : AuthCodeProfile)
    (db' : AuthDB) (hwf : AuthCodes.wf db = true)
    (h : AuthCodes.assertAuthCode db mc c = some (p, db')) :
    db'.filter (fun r => r.mc_id == mc) = [⟨c, mc⟩] := by
  cases hf : db.find? (fun r => r.mc_id == mc) with
  | none =>
    simp only [AuthCodes.assertAuthCode, hf] at h
    split at h
    · cases h
    · simp only [Option.some.injEq, Prod.mk.injEq] at h
      obtain ⟨-, hdb⟩ := h
      subst hdb
      have hnil : db.filter (fun r => r.mc_id == mc) = [] := by
        rw [List.filter_eq_nil_iff]
        intro s hs
        exact List.find?_eq_none.mp hf s hs
      rw [List.filter_append, hnil]
      simp
  | some r0 =>
    simp only [AuthCodes.assertAuthCode, hf] at h
    split at h
    · cases h
    · simp only [Option.some.injEq, Prod.mk.injEq] at h
      obtain ⟨-, hdb⟩ := h
      subst hdb
      rw [filter_map_setCode, wf_filter_singleton db mc r0 hwf hf]
      have hmc : r0.mc_id = mc := by simpa using List.find?_some hf
      simp [hmc]

/-- **C8**: starting from a table satisfying the UNIQUE constraints, two
successful `assertAuthCode` calls for the same `mc_id` (with generated codes
`c1` then `c2`) leave exactly one pending-authorization row keyed by that
`mc_id`, and its `auth_code` is the code of the second call — the statement is an
upsert keyed by `mc_id`. -/
theorem assertAuthCode_upsert (db : AuthDB) (mc c1 c2 : String)
    (p1 p2 : AuthCodeProfile) (db1 db2 : AuthDB) (hwf : AuthCodes.wf db = true)
    (h1 : AuthCodes.assertAuthCode db mc c1 = some (p1, db1))
    (h2 : AuthCodes.assertAuthCode db1 mc c2 = some (p2, db2)) :
    db2.filter (fun r => r.mc_id == mc) = [⟨c2, mc⟩] := by
  have hfil1 : db1.filter (fun r => r.mc_id == mc) = [⟨c1, mc⟩] :=
    assertAuthCode_filter db mc c1 p1 db1 hwf h1
  have hmem : ∃ x ∈ db1, (x.mc_id == mc) = true := by
    have hin : (⟨c1, mc⟩ : AuthCodeProfile) ∈ db1.filter (fun r => r.mc_id == mc) := by
      rw [hfil1]; simp
    rcases List.mem_filter.mp hin with ⟨hm, hp⟩
    exact ⟨_, hm, hp⟩
  have hsome : (db1.find? (fun r => r.mc_id == mc)).isSome = true :=
    List.find?_isSome.mpr hmem
  cases hf1 : db1.find? (fun r => r.mc_id == mc) with
  | none => rw [hf1] at hsome; cases hsome
  | some r1 =>
    simp only [AuthCodes.assertAuthCode, hf1] at h2
    split at h2
    · cases h2
    · simp only [Option.some.injEq, Prod.mk.injEq] at h2
      obtain ⟨-, hdb⟩ := h2
      subst hdb
      rw [filter_map_setCode, hfil1]
      simp

/-- Witness for `assertAuthCode_upsert`: empty table, codes "a" then "b" for
player "m". -/
theorem assertAuthCode_upsert_witness :
    List.filter (fun r => r.mc_id == "m") [(⟨"b", "m"⟩ : AuthCodeProfile)]
      = [⟨"b", "m"⟩] :=
  assertAuthCode_upsert [] "m" "a" "b" ⟨"a", "m"⟩ ⟨"b", "m"⟩
    [⟨"a", "m"⟩] [⟨"b", "m"⟩] rfl rfl rfl

/-! ## WebServer (src/webserver/WebServer.ts) -/

/-- JavaScript `String.prototype.split` with a one-character separator,
modelled on the character list: `split` never returns an empty list, and
consecutive separators yield empty segments, as in JS. -/
def splitChars (sep : Char) : List Char → List (List Char)
  | [] => [[]]
  | c :: cs =>
    if c = sep then [] :: splitChars sep cs
    else
      match splitChars sep cs with
      | r :: rs => (c :: r) :: rs
      | [] => [[c]]

/-- Applies the JS split on a Lean `String`, as in the source line
`const authSplit = auth.split(" ")` (the separator there is a space). -/
def jsSplit (sep : Char) (s : String) : List String :=
  (splitChars sep s.data).map String.mk

/-- A JSON value, as parsed by `express.json()`. -/
inductive JValue where
  | null
  | bool (b : Bool)
  | num (n : Int)
  | str (s : String)
  | arr (xs : List JValue)
  | obj (fields : List (String × JValue))

/-- Tests `typeof v == "string"`. -/
def JValue.isString : JValue → Bool
  | .str _ => true
  | _ => false

/-- Tests whether `v == undefined` holds loosely: for present values exactly when the
value is JSON `null`. -/
def JValue.isNull : JValue → Bool
  | .null => true
  | _ => false

/-- The string content of a string value (default `""` elsewhere; the
pipeline only reaches this on values `validateBody` forwarded, which are
strings). -/
def JValue.asString : JValue → String
  | .str s => s
  | _ => ""

/-- A parsed JSON request body object. -/
abbrev JObj := List (String × JValue)

/-- Models the property lookup `body["player_id"]`; an absent key gives `undefined`. -/
def lookupField (o : JObj) (k : String) : Option JValue :=
  (o.find? (fun p => p.1 == k)).map (fun p => p.2)

/-- A response body written with `res.send`. -/
inductive RespBody where
  | errPayload (errcode message : String)
  | validity (valid : Bool) (reason : Option String)
deriving Repr, DecidableEq

/-- An HTTP response: the status set with `res.status` and the body sent
with `res.send` (none when the handler only calls `res.end()`). -/
structure Resp where
  status : Nat
  body : Option RespBody
deriving Repr, DecidableEq

/-- Modelled from the spec: src/webserver/errors.ts is not among the
sources; the body-validation stage of the spec sends a 400 payload with errcode
`NO_BODY` for a missing body (its message text is given nowhere, left ""). -/
def noBodyError : RespBody := .errPayload "NO_BODY" ""

/-- Modelled from the spec: src/webserver/errors.ts is not among the
sources; the payload with errcode `NO_PLAYER_ID` (message text elided). -/
def noPlayerID : RespBody := .errPayload "NO_PLAYER_ID" ""

/-- Modelled from the spec: src/webserver/errors.ts is not among the
sources; the payload with errcode `PLAYER_ID_TYPE` (message text elided). -/
def playerIDType : RespBody := .errPayload "PLAYER_ID_TYPE" ""

/-- Modelled from the spec: src/webserver/responses.ts is not among the
sources; `isValid` is the valid-player body, `{valid: true}`. -/
def isValid : RespBody := .validity true none

/-- Modelled from the spec: src/webserver/responses.ts is not among the
sources.  A single constant imported by WebServer.ts and sent at every
`valid:false` site of `isValidPlayer`; the 500 response body in the spec is
`{"valid": false}`, so the constant carries no reason field. -/
def isNotValid : RespBody := .validity false none

/-- What an express middleware does with a request: either write a response
and stop, or call `next()` carrying the data it attached to the request. -/
inductive StageResult (α : Type) where
  | respond (r : Resp)
  | next (a : α)
deriving Repr, DecidableEq

/-- Models `checkAuth(req, res, next)`: read the `Authorization` header; `!auth`
(absent or empty) → 203 and end; `auth.split(' ').length == 1` → 203 and
end; otherwise compare `authSplit[1]` with the configured token: equal →
`next()`, else 401 and end. -/
def checkAuth (cfgToken : String) (authHeader : Option String) : StageResult Unit :=
  match authHeader with
  | none => .respond ⟨203, none⟩
  | some auth =>
    if auth == "" then .respond ⟨203, none⟩
    else if (jsSplit ' ' auth).length == 1 then .respond ⟨203, none⟩
    else if (jsSplit ' ' auth).getD 1 "" == cfgToken then .next ()
    else .respond ⟨401, none⟩

/-- Models `validateBody(req, res, next)`: `req.body == undefined` → 400 NO_BODY
(the source then falls through without `return` and throws reading
`req.body["player_id"]`, but the 400 response was already sent and ended, so
it is the observable outcome).  Otherwise read `player_id`: loosely equal to
`undefined` (key absent, or JSON null) → 400 NO_PLAYER_ID; present with
`typeof != "string"` → 400 PLAYER_ID_TYPE; else attach the value to the
request (`req["player_id"] = playerUUID`) and call `next()`. -/
def validateBody (body : Option JObj) : StageResult JValue :=
  match body with
  | none => .respond ⟨400, some noBodyError⟩
  | some b =>
    match lookupField b "player_id" with
    | none => .respond ⟨400, some noPlayerID⟩
    | some v =>
      if v.isNull then .respond ⟨400, some noPlayerID⟩
      else if v.isString then .next v
      else .respond ⟨400, some playerIDType⟩

/-- Modelled from the spec: `DBController.getDiscordID` (src/db/index.ts) is
not among the sources, only its caller and `LinksTable.getDiscordID` are.
Per the resolution stage of the spec and the `@throws NoDiscordAccError` doc
comment on `LinksTable.getDiscordID`, a player with no link surfaces to the
web server as a thrown `NoDiscordAccError`; modelled synchronously, as the
caller uses the result directly. -/
def DBController.getDiscordID (db : LinksDB) (uuid : String) :
    Except LinksTable.DbError String :=
  match LinksTable.getDiscordID db uuid with
  | some d => .ok d
  | none => .error .NoDiscordAccError

/-- Outcome of the Role Oracle call `this.discord.isTierThree(discordID)`
(external collaborator): a boolean answer, a thrown `NoDiscordAccError`
(user not found), or any other thrown failure. -/
inductive OracleResult where
  | ok (b : Bool)
  | noDiscordAcc
  | failure
deriving Repr, DecidableEq

/-- Models `isValidPlayer(req, res)`: resolve the Discord id, ask the oracle, and
answer 200 `isValid` / 200 `isNotValid`; a caught `NoDiscordAccError`
(thrown by the resolution or by the oracle) gives 200 `isNotValid`; any
other caught error gives 500 `isNotValid`. -/
def isValidPlayer (links : LinksDB) (oracle : String → OracleResult)
    (playerUUID : String) : Resp :=
  match DBController.getDiscordID links playerUUID with
  | .error .NoDiscordAccError => ⟨200, some isNotValid⟩
  | .error _ => ⟨500, some isNotValid⟩
  | .ok discordID =>
    match oracle discordID with
    | .ok true => ⟨200, some isValid⟩
    | .ok false => ⟨200, some isNotValid⟩
    | .noDiscordAcc => ⟨200, some isNotValid⟩
    | .failure => ⟨500, some isNotValid⟩

/-- An inbound `POST /isValidPlayer` request, as the handlers see it. -/
structure McRequest where
  authHeader : Option String
  body : Option JObj

/-- The two stages registered after `checkAuth` in `start()`:
`validateBody` then `isValidPlayer` on the attached `player_id`. -/
def postAuthStages (links : LinksDB) (oracle : String → OracleResult)
    (body : Option JObj) : Resp :=
  match validateBody body with
  | .respond r => r
  | .next v => isValidPlayer links oracle v.asString

/-- The full middleware chain of `start()`, in registration order:
`app.use("/", checkAuth)` first, then body validation, then resolution. -/
def handleRequest (cfgToken : String) (links : LinksDB)
    (oracle : String → OracleResult) (req : McRequest) : Resp :=
  match checkAuth cfgToken req.authHeader with
  | .respond r => r
  | .next _ => postAuthStages links oracle req.body

/-- Splitting a list that starts with a separator-free prefix followed by
one separator peels off exactly that prefix as the first segment. -/
theorem splitChars_append_sep (sep : Char) (s t : List Char) (hs : sep ∉ s) :
    splitChars sep (s ++ sep :: t) = s :: splitChars sep t := by
  induction s with
  | nil => simp [splitChars]
  | cons c cs ih =>
    simp only [List.mem_cons, not_or] at hs
    have hcs : ¬ c = sep := fun e => hs.1 e.symm
    simp only [List.cons_append, splitChars, if_neg hcs, List.append_eq, ih hs.2]

/-- A separator-free list splits into the single segment holding it. -/
theorem splitChars_no_sep (sep : Char) (s : List Char) (hs : sep ∉ s) :
    splitChars sep s = [s] := by
  induction s with
  | nil => rfl
  | cons c cs ih =>
    simp only [List.mem_cons, not_or] at hs
    have hcs : ¬ c = sep := fun e => hs.1 e.symm
    simp only [splitChars, if_neg hcs, ih hs.2]

/-- Rebuilding a string from its character list is the identity. -/
theorem mk_data (s : String) : String.mk s.data = s := by
  cases s
  rfl

/-- The characters of `s ++ " " ++ t`. -/
theorem data_append_space (s t : String) :
    (s ++ " " ++ t).data = s.data ++ (' ' :: t.data) := by
  rw [String.data_append, String.data_append]
  simp [show (" " : String).data = [' '] from rfl]

/-- `jsSplit` of a scheme, a space and a space-free token. -/
theorem jsSplit_scheme_token (s t : String) (hs : (' ') ∉ s.data)
    (ht : (' ') ∉ t.data) : jsSplit ' ' (s ++ " " ++ t) = [s, t] := by
  unfold jsSplit
  rw [data_append_space, splitChars_append_sep _ _ _ hs, splitChars_no_sep _ _ ht]
  simp [mk_data]

/-- `jsSplit` with further segments after the second one. -/
theorem jsSplit_scheme_token_extra (s t u : String) (hs : (' ') ∉ s.data)
    (ht : (' ') ∉ t.data) :
    jsSplit ' ' (s ++ " " ++ t ++ " " ++ u)
      = s :: t :: (splitChars ' ' u.data).map String.mk := by
  unfold jsSplit
  have hd : (s ++ " " ++ t ++ " " ++ u).data
      = s.data ++ (' ' :: (t.data ++ (' ' :: u.data))) := by
    rw [data_append_space (s ++ " " ++ t) u, data_append_space s t]
    simp
  rw [hd, splitChars_append_sep _ _ _ hs, splitChars_append_sep _ _ _ ht]
  simp [mk_data]

/-- **C9**: `checkAuth` never inspects the scheme segment — for any
space-free scheme `s` and space-free token `t`, the header `s ++ " " ++ t`
is accepted exactly when `t` equals the configured token (so e.g.
`NotBearer <token>` passes), and any further space-separated segments after
the second are ignored. -/
theorem checkAuth_ignores_scheme (cfg s t extra : String)
    (hs : (' ') ∉ s.data) (ht : (' ') ∉ t.data) :
    (checkAuth cfg (some (s ++ " " ++ t))
      = if t == cfg then .next () else .respond ⟨401, none⟩) ∧
    (checkAuth cfg (some (s ++ " " ++ t ++ " " ++ extra))
      = if t == cfg then .next () else .respond ⟨401, none⟩) := by
  have hne1 : ((s ++ " " ++ t) == "") = false := by
    apply beq_eq_false_iff_ne.mpr
    intro e
    have h2 := congrArg String.data e
    rw [data_append_space] at h2
    simp at h2
  have hne2 : ((s ++ " " ++ t ++ " " ++ extra) == "") = false := by
    apply beq_eq_false_iff_ne.mpr
    intro e
    have h2 := congrArg String.data e
    rw [data_append_space] at h2
    simp at h2
  constructor
  · simp only [checkAuth, hne1, jsSplit_scheme_token s t hs ht]
    simp
  · simp only [checkAuth, hne2, jsSplit_scheme_token_extra s t extra hs ht]
    simp

/-- Witness for `checkAuth_ignores_scheme`: scheme "NotBearer", token
"tok", extra segment "x", configured token "tok". -/
theorem checkAuth_ignores_scheme_witness :
    (checkAuth "tok" (some ("NotBearer" ++ " " ++ "tok"))
      = if "tok" == "tok" then .next () else .respond ⟨401, none⟩) ∧
    (checkAuth "tok" (some ("NotBearer" ++ " " ++ "tok" ++ " " ++ "x"))
      = if "tok" == "tok" then .next () else .respond ⟨401, none⟩) :=
  checkAuth_ignores_scheme "tok" "NotBearer" "tok" "x" (by decide) (by decide)

/-- **C4**: the authorization stage decides every request first: an absent
header, or one with no space-separated scheme/token pair, answers 203 with
an empty body; a present pair whose token differs from the configured token
answers 401 with an empty body; only a token match hands the request to the
following stages.  The rejecting conclusions hold for every link table and
every oracle — the store is never consulted before authorization passes. -/
theorem checkAuth_runs_first (cfg : String) (links : LinksDB)
    (orc : String → OracleResult) (req : McRequest) :
    (req.authHeader = none → handleRequest cfg links orc req = ⟨203, none⟩) ∧
    (∀ a, req.authHeader = some a → (jsSplit ' ' a).length = 1 →
      handleRequest cfg links orc req = ⟨203, none⟩) ∧
    (∀ a, req.authHeader = some a → 2 ≤ (jsSplit ' ' a).length →
      (jsSplit ' ' a).getD 1 "" ≠ cfg →
      handleRequest cfg links orc req = ⟨401, none⟩) ∧
    (∀ a, req.authHeader = some a → 2 ≤ (jsSplit ' ' a).length →
      (jsSplit ' ' a).getD 1 "" = cfg →
      handleRequest cfg links orc req = postAuthStages links orc req.body) := by
  refine ⟨?_, ?_, ?_, ?_⟩
  · intro h
    simp [handleRequest, checkAuth, h]
  · intro a ha hlen
    by_cases hae : (a == "") = true
    · simp [handleRequest, checkAuth, ha, hae]
    · simp [handleRequest, checkAuth, ha, hae, hlen]
  · intro a ha hlen hne
    have hae : (a == "") = false := by
      apply beq_eq_false_iff_ne.mpr
      intro e
      subst e
      rw [show jsSplit ' ' "" = [""] from rfl] at hlen
      simp at hlen
    have hl1 : ((jsSplit ' ' a).length == 1) = false := by
      apply beq_eq_false_iff_ne.mpr
      omega
    rw [List.getD_eq_getElem?_getD] at hne
    simp [handleRequest, checkAuth, ha, hae, hl1, hne]
  · intro a ha hlen htok
    have hae : (a == "") = false := by
      apply beq_eq_false_iff_ne.mpr
      intro e
      subst e
      rw [show jsSplit ' ' "" = [""] from rfl] at hlen
      simp at hlen
    have hl1 : ((jsSplit ' ' a).length == 1) = false := by
      apply beq_eq_false_iff_ne.mpr
      omega
    rw [List.getD_eq_getElem?_getD] at htok
    simp [handleRequest, checkAuth, ha, hae, hl1, htok]

/-- Witness for `checkAuth_runs_first`: a request with no Authorization
header is answered 203 regardless of the store. -/
theorem checkAuth_runs_first_witness :
    handleRequest "t0" [] (fun _ => OracleResult.failure) ⟨none, none⟩
      = ⟨203, none⟩ :=
  (checkAuth_runs_first "t0" [] (fun _ => OracleResult.failure) ⟨none, none⟩).1 rfl

/-- **C6** counterexample: a body carrying `player_id: null` has the field
present with a non-string value, so the claim demands `PLAYER_ID_TYPE`, but
the source tests `playerUUID == undefined` with loose equality, which `null`
satisfies, and answers `NO_PLAYER_ID`. -/
theorem validateBody_null_gets_no_player_id :
    validateBody (some [("player_id", JValue.null)])
      = .respond ⟨400, some noPlayerID⟩ ∧
    noPlayerID ≠ playerIDType := by
  exact ⟨rfl, by decide⟩

/-- **C6** (amended): the body-validation stage classifies exhaustively and
exclusively — missing body → 400 `NO_BODY`; `player_id` absent OR null
(both are loosely `== undefined`) → 400 `NO_PLAYER_ID`; present, non-null
and non-string → 400 `PLAYER_ID_TYPE`; a string `player_id` is attached to
the request and the stage proceeds. -/
theorem validateBody_classification (b : JObj) (v : JValue) :
    (validateBody none = .respond ⟨400, some noBodyError⟩) ∧
    (lookupField b "player_id" = none →
      validateBody (some b) = .respond ⟨400, some noPlayerID⟩) ∧
    (lookupField b "player_id" = some JValue.null →
      validateBody (some b) = .respond ⟨400, some noPlayerID⟩) ∧
    (lookupField b "player_id" = some v → v.isNull = false →
      v.isString = false →
      validateBody (some b) = .respond ⟨400, some playerIDType⟩) ∧
    (∀ s, lookupField b "player_id" = some (JValue.str s) →
      validateBody (some b) = .next (JValue.str s)) := by
  refine ⟨rfl, ?_, ?_, ?_, ?_⟩
  · intro h
    simp [validateBody, h]
  · intro h
    simp [validateBody, h, JValue.isNull]
  · intro h h1 h2
    simp [validateBody, h, h1, h2]
  · intro s h
    simp [validateBody, h, JValue.isNull, JValue.isString]

/-- Witness for `validateBody_classification`: `player_id: true` (a boolean)
is answered 400 `PLAYER_ID_TYPE`. -/
theorem validateBody_classification_witness :
    validateBody (some [("player_id", JValue.bool true)])
      = .respond ⟨400, some playerIDType⟩ :=
  (validateBody_classification [("player_id", JValue.bool true)]
    (JValue.bool true)).2.2.2.1 rfl rfl rfl

/-- **C10**: `validateBody` calls `next()` only after attaching a
string-typed `player_id` to the request, so the value the resolution stage
reads from the request context is always a string. -/
theorem validateBody_next_isString (body : Option JObj) (v : JValue)
    (h : validateBody body = .next v) : v.isString = true := by
  cases body with
  | none => simp [validateBody] at h
  | some b =>
    cases hf : lookupField b "player_id" with
    | none => simp [validateBody, hf] at h
    | some w =>
      simp only [validateBody, hf] at h
      by_cases h1 : w.isNull = true
      · rw [if_pos h1] at h
        cases h
      · rw [if_neg h1] at h
        by_cases h2 : w.isString = true
        · rw [if_pos h2] at h
          injection h with hv
          subst hv
          exact h2
        · rw [if_neg h2] at h
          cases h

/-- Witness for `validateBody_next_isString` at a body carrying the string
"u0". -/
theorem validateBody_next_isString_witness :
    (JValue.str "u0").isString = true :=
  validateBody_next_isString (some [("player_id", JValue.str "u0")])
    (JValue.str "u0") rfl

/-- **C5**: when the link resolves and the oracle raises any failure other
than the user-not-found condition, the response is 500 with the fail-closed
`isNotValid` body (`valid = false`); and whenever no oracle call answers
`true`, the pipeline never sends a body other than `isNotValid` — an
incomplete role check can never grant access. -/
theorem isValidPlayer_failClosed (links : LinksDB)
    (orc : String → OracleResult) (p : String) :
    (∀ d, DBController.getDiscordID links p = .ok d → orc d = .failure →
      isValidPlayer links orc p = ⟨500, some isNotValid⟩) ∧
    ((∀ x, orc x ≠ .ok true) →
      (isValidPlayer links orc p).body = some isNotValid) := by
  constructor
  · intro d hres horc
    simp [isValidPlayer, hres, horc]
  · intro hno
    cases hres : DBController.getDiscordID links p with
    | error e =>
      cases e <;> simp [isValidPlayer, hres]
    | ok d =>
      cases ho : orc d with
      | ok b =>
        cases b
        · simp [isValidPlayer, hres, ho]
        · exact absurd ho (hno d)
      | noDiscordAcc => simp [isValidPlayer, hres, ho]
      | failure => simp [isValidPlayer, hres, ho]

/-- Witness for `isValidPlayer_failClosed`: player "p5" linked to "d5",
oracle failing with a generic error, answered 500 `isNotValid`. -/
theorem isValidPlayer_failClosed_witness :
    isValidPlayer [⟨"p5", "d5"⟩] (fun _ => OracleResult.failure) "p5"
      = ⟨500, some isNotValid⟩ :=
  (isValidPlayer_failClosed [⟨"p5", "d5"⟩]
    (fun _ => OracleResult.failure) "p5").1 "d5" rfl rfl

/-- **C2** (code_bug evidence): the no-link outcome (empty link table) and
the linked-but-user-not-found outcome produce the very same response — 200
with the single shared `isNotValid` constant — so the two negative outcomes
cannot carry the distinct `reason` values "no_link" and "no_role" that the
claim (and the endpoint documentation of the repository) requires. -/
theorem negative_outcomes_collapse :
    isValidPlayer ([] : LinksDB) (fun _ => OracleResult.noDiscordAcc) "p2"
      = ⟨200, some isNotValid⟩ ∧
    isValidPlayer [⟨"p2", "d2"⟩] (fun _ => OracleResult.noDiscordAcc) "p2"
      = ⟨200, some isNotValid⟩ :=
  ⟨rfl, rfl⟩

end McDiscordAuth
